import Mathlib

/-!
Verification development for the Integration Dispatch & Health Coordination
subsystem of the covia-pm frontend.

The definitions below are a shallow embedding of the TypeScript sources:

  - src/types.ts                (data model)
  - src/config/integrations.ts  (the INTEGRATIONS registry)
  - src/lib/venue.ts            (PMVenueClient: connect, ensureAssets,
                                 buildAssetIdMap, fetchTranscript, executeActions)
  - src/lib/serverPing.ts       (pingServer)
  - src/hooks/useSettings.ts    (useHealthChecks hook)

Remote effects (Grid.connect, venue.createAsset, venue.getAssets, venue.run,
fetch) are modelled as explicit oracles supplied to the functions; async
callbacks (onStepUpdate) are modelled as an emitted event list, and the
sequence of remote invocations is recorded in an explicit call trace.
-/

namespace CoviaPM

/-! ## Data model (src/types.ts) -/

/-- Status of one execution step, from the ExecutionStepStatus union in
src/types.ts. -/
inductive ExecutionStepStatus where
  | pending
  | running
  | success
  | error
  | skipped
deriving DecidableEq, Repr

/-- True for the three terminal statuses a dispatch step can end in. -/
def ExecutionStepStatus.isTerminal : ExecutionStepStatus → Bool
  | .success => true
  | .error => true
  | .skipped => true
  | _ => false

/-- One unit of delegated work, from the ActionItem interface in src/types.ts.
The free-form metadata record is never read by the dispatcher and is omitted. -/
structure ActionItem where
  type : String
  description : String
  assignee : Option String
  priority : String
  target : String
deriving DecidableEq, Repr

/-- Output of meeting analysis, from the AnalysisResult interface in
src/types.ts. Only actionItems is read by the dispatcher. -/
structure AnalysisResult where
  actionItems : List ActionItem
  blockers : List String
  decisions : List String
deriving DecidableEq, Repr

/-- The flat settings record (PMSettings in src/types.ts): every field is a
string and the dispatcher indexes it dynamically by field name after casting
to a string record, so we model it as a total map from field name to value,
with the empty string standing for an unset field (both the empty string and
an absent field are falsy in the source). -/
abbrev PMSettings := String → String

/-- Health classification of one endpoint (HealthStatus in src/types.ts). -/
inductive HealthStatus where
  | unchecked
  | checking
  | ok
  | unreachable
deriving DecidableEq, Repr

/-! ## Association-list maps

The source uses a JS Map for the asset id map and a plain object for the
health map; both update by replacing the value of an existing key in place
and appending a new key at the end, which mapInsert mirrors. -/

/-- Insert or replace a binding, JS-object/Map style: an existing key keeps
its position, a new key is appended. -/
def mapInsert {α : Type} (m : List (String × α)) (k : String) (v : α) :
    List (String × α) :=
  if m.any (fun p => p.1 == k) then
    m.map (fun p => if p.1 == k then (k, v) else p)
  else m ++ [(k, v)]

/-- Lookup of a binding by key. -/
def mapLookup {α : Type} (m : List (String × α)) (k : String) : Option α :=
  (m.find? (fun p => p.1 == k)).map Prod.snd

/-! ## Integration registry (src/config/integrations.ts) -/

/-- One integration descriptor from src/config/integrations.ts. The purely
presentational fields (name, description, icon, iconColor and the form-field
list) are omitted: no claim and no dispatch/health code path reads them.
The hidden flag is absent on every entry in the source, which is falsy, so it
is transcribed as false everywhere. -/
structure Integration where
  id : String
  category : String
  serverKey : String
  hidden : Bool
deriving DecidableEq, Repr

/-- The INTEGRATIONS array of src/config/integrations.ts, in source order.
Fields: id, category, serverKey, hidden. -/
def INTEGRATIONS : List Integration := [
  ⟨"jira", "issue-trackers", "jiraServer", false⟩,
  ⟨"linear", "issue-trackers", "linearServer", false⟩,
  ⟨"azure-devops", "issue-trackers", "azureServer", false⟩,
  ⟨"github", "vcs", "githubServer", false⟩,
  ⟨"gitlab", "vcs", "gitlabServer", false⟩,
  ⟨"slack", "communication", "slackServer", false⟩,
  ⟨"teams", "communication", "teamsServer", false⟩,
  ⟨"email", "communication", "emailServer", false⟩,
  ⟨"pagerduty", "incident", "pagerdutyServer", false⟩,
  ⟨"sentry", "observability", "sentryServer", false⟩,
  ⟨"confluence", "documentation", "confluenceServer", false⟩,
  ⟨"calendar", "calendar", "calendarServer", false⟩,
  ⟨"granola", "meeting-tools", "granolaServer", false⟩,
  ⟨"fathom", "meeting-tools", "fathomServer", false⟩,
  ⟨"fireflies", "meeting-tools", "firefliesServer", false⟩,
  ⟨"otter", "meeting-tools", "otterServer", false⟩,
  ⟨"tldv", "meeting-tools", "tldvServer", false⟩,
  ⟨"avoma", "meeting-tools", "avomaServer", false⟩,
  ⟨"read", "meeting-tools", "readServer", false⟩,
  ⟨"zoom", "meeting-tools", "zoomServer", false⟩,
  ⟨"teams-meeting", "meeting-tools", "teamsMeetingServer", false⟩]

/-! ## The remote substrate (oracles for covialib effects) -/

/-- The dynamic payload a remote operation resolves with. The source reads at
most the transcript and summary properties of the result and otherwise
stringifies it, so those projections plus the stringified form are kept. -/
structure RunValue where
  transcript : Option String
  summary : Option String
  raw : String
deriving DecidableEq, Repr

/-- Outcome of one venue.run invocation: resolve with a payload, or reject
with an error message. -/
inductive RunResult where
  | ok (v : RunValue)
  | err (msg : String)
deriving DecidableEq, Repr

/-- Input record passed to venue.run. executeActions passes the filtered
action items, the meeting notes and a per-target record of configured fields;
fetchTranscript passes a call reference plus server and token. -/
inductive RunInput where
  | exec (actions : List ActionItem) (notes : String) (extra : List (String × String))
  | fetch (callRef : String) (server : String) (token : String)
deriving DecidableEq, Repr

/-- One deployable operation definition (an entry of the pmAssets import in
src/lib/venue.ts). Only the metadata name is read by ensureAssets; the JSON
body is opaque and external to the dispatch core. -/
structure AssetMetadata where
  name : Option String
deriving DecidableEq, Repr

/-- One asset as returned by venue.getAssets: its substrate id and the
optional metadata name (asset.metadata?.name in the source). -/
structure VenueAsset where
  id : String
  name : Option String
deriving DecidableEq, Repr

/-- The connected venue: its id plus the three remote effects the client
uses, each supplied as an oracle describing how the substrate would answer. -/
structure Venue where
  venueId : String
  createAsset : AssetMetadata → Except String Unit
  getAssets : Except String (List VenueAsset)
  run : String → RunInput → RunResult

/-- The mutable state of PMVenueClient in src/lib/venue.ts: the current venue
(null when disconnected), the connection-scoped deployment flag, and the
name-to-id asset map. -/
structure PMVenueClient where
  venue : Option Venue
  assetsDeployed : Bool
  assetIdMap : List (String × String)

/-- A fresh client: not connected, nothing deployed, empty asset map. -/
def PMVenueClient.init : PMVenueClient := ⟨none, false, []⟩

/-- disconnect() from src/lib/venue.ts: drop the venue, reset the deployment
flag and clear the asset id map. -/
def PMVenueClient.disconnect (_st : PMVenueClient) : PMVenueClient := ⟨none, false, []⟩

/-! ## Asset deployment (ensureAssets / buildAssetIdMap) -/

/-- Occurrence of one character list as a contiguous sublist of another. -/
def listContainsSub (pat : List Char) : List Char → Bool
  | [] => pat.isEmpty
  | c :: rest => pat.isPrefixOf (c :: rest) || listContainsSub pat rest

/-- JS String.prototype.includes for a nonempty pattern: true when the
pattern occurs as a contiguous substring. -/
def strContains (s pat : String) : Bool := listContainsSub pat.data s.data

/-- Classification of the createAsset error messages that the source treats
as an already-existing asset: the message contains 409 or already exists. -/
def isConflictMsg (msg : String) : Bool :=
  strContains msg "409" || strContains msg "already exists"

/-- Per-definition outcome of the deployment loop in ensureAssets, mirroring
its four logged branches. -/
inductive DeployOutcome where
  | skippedNoName
  | deployed (name : String)
  | alreadyExists (name : String)
  | failed (name : String) (msg : String)
deriving DecidableEq, Repr

/-- The body of the ensureAssets loop for one definition: a definition with
no metadata name is skipped with a warning before any remote call; otherwise
createAsset is attempted and a thrown error is caught, classified as a
conflict (409 / already exists) or logged as a deployment issue. Nothing is
rethrown. -/
def deployOne (v : Venue) (a : AssetMetadata) : DeployOutcome :=
  match a.name with
  | none => .skippedNoName
  | some n =>
    match v.createAsset a with
    | .ok _ => .deployed n
    | .error m => if isConflictMsg m then .alreadyExists n else .failed n m

/-- The names for which deployOne actually invoked createAsset. -/
def attemptedNames (log : List DeployOutcome) : List String :=
  log.filterMap (fun o =>
    match o with
    | .skippedNoName => none
    | .deployed n => some n
    | .alreadyExists n => some n
    | .failed n _ => some n)

/-- buildAssetIdMap from src/lib/venue.ts: query getAssets and record every
asset whose metadata name starts with the pm: namespace prefix; a thrown
error is caught and the map is left unchanged. -/
def buildAssetIdMap (st : PMVenueClient) : PMVenueClient :=
  match st.venue with
  | none => st
  | some v =>
    match v.getAssets with
    | .error _ => st
    | .ok assets =>
      { st with assetIdMap :=
          assets.foldl (fun m a =>
            match a.name with
            | some n => if n.startsWith "pm:" then mapInsert m n a.id else m
            | none => m) st.assetIdMap }

/-- ensureAssets from src/lib/venue.ts: a no-op when already deployed or not
connected; otherwise run deployOne over every definition in order, set the
connection-scoped flag, and build the asset id map. Returns the new client
state together with the per-definition outcome log. -/
def ensureAssets (st : PMVenueClient) (assets : List AssetMetadata) :
    PMVenueClient × List DeployOutcome :=
  match st.venue with
  | none => (st, [])
  | some v =>
    if st.assetsDeployed then (st, [])
    else
      let log := assets.map (deployOne v)
      (buildAssetIdMap { st with assetsDeployed := true }, log)

/-- connect from src/lib/venue.ts: Grid.connect (whose outcome is the
gridResult oracle) followed by ensureAssets over the pmAssets list. A
rejection of Grid.connect propagates and leaves the client disconnected. -/
def connect (st : PMVenueClient) (gridResult : Except String Venue)
    (assets : List AssetMetadata) :
    Except String (PMVenueClient × List DeployOutcome) :=
  match gridResult with
  | .error m => .error m
  | .ok v => .ok (ensureAssets { st with venue := some v } assets)

/-! ## Transcript fetch (fetchTranscript) -/

/-- The nine transcript sources (TranscriptSource in src/types.ts). -/
inductive TranscriptSource where
  | granola
  | fathom
  | fireflies
  | otter
  | tldv
  | avoma
  | read
  | zoom
  | teamsMeeting
deriving DecidableEq, Repr

/-- FETCH_ASSET_NAMES from src/lib/venue.ts. -/
def fetchAssetName : TranscriptSource → String
  | .granola => "pm:fetchGranolaNote"
  | .fathom => "pm:fetchFathomSummary"
  | .fireflies => "pm:fetchFirefliesTranscript"
  | .otter => "pm:fetchOtterTranscript"
  | .tldv => "pm:fetchTldvHighlights"
  | .avoma => "pm:fetchAvomaSummary"
  | .read => "pm:fetchReadSummary"
  | .zoom => "pm:fetchZoomAISummary"
  | .teamsMeeting => "pm:fetchTeamsMeetingSummary"

/-- FETCH_SERVER_KEYS from src/lib/venue.ts. -/
def fetchServerKey : TranscriptSource → String
  | .granola => "granolaServer"
  | .fathom => "fathomServer"
  | .fireflies => "firefliesServer"
  | .otter => "otterServer"
  | .tldv => "tldvServer"
  | .avoma => "avomaServer"
  | .read => "readServer"
  | .zoom => "zoomServer"
  | .teamsMeeting => "teamsMeetingServer"

/-- FETCH_TOKEN_KEYS from src/lib/venue.ts. -/
def fetchTokenKey : TranscriptSource → String
  | .granola => "granolaToken"
  | .fathom => "fathomToken"
  | .fireflies => "firefliesToken"
  | .otter => "otterToken"
  | .tldv => "tldvToken"
  | .avoma => "avomaToken"
  | .read => "readToken"
  | .zoom => "zoomToken"
  | .teamsMeeting => "teamsMeetingToken"

/-- The three distinct throw sites of fetchTranscript, kept apart by
provenance; message recovers the exact thrown message of each site. -/
inductive FetchError where
  | notConnected
  | assetNotFound (assetName : String)
  | remote (msg : String)
deriving DecidableEq, Repr

/-- The message carried by each fetchTranscript error, verbatim from the
source. -/
def FetchError.message : FetchError → String
  | .notConnected => "Not connected to venue"
  | .assetNotFound n => "Asset " ++ n ++ " not found — ensure the venue is connected"
  | .remote m => m

/-- Outcome of one fetchTranscript call: the resolved transcript text or the
error it rejected with, together with the trace of remote invocations it
issued. -/
structure FetchOutcome where
  result : Except FetchError String
  calls : List (String × RunInput)

/-- fetchTranscript from src/lib/venue.ts: fail fast when not connected,
fail when the asset id is unresolved, otherwise invoke the asset with the
call reference plus the configured server and token, projecting the payload
as transcript, else summary, else its stringified form. Errors thrown by the
remote call are not caught and propagate. -/
def fetchTranscript (st : PMVenueClient) (source : TranscriptSource)
    (callRef : String) (settings : PMSettings) : FetchOutcome :=
  match st.venue with
  | none => ⟨.error .notConnected, []⟩
  | some v =>
    let assetName := fetchAssetName source
    match mapLookup st.assetIdMap assetName with
    | none => ⟨.error (.assetNotFound assetName), []⟩
    | some assetId =>
      let input := RunInput.fetch callRef (settings (fetchServerKey source))
        (settings (fetchTokenKey source))
      match v.run assetId input with
      | .ok value =>
        ⟨.ok (value.transcript.getD (value.summary.getD value.raw)), [(assetId, input)]⟩
      | .err m => ⟨.error (.remote m), [(assetId, input)]⟩

/-! ## Execution dispatcher (executeActions) -/

/-- One onStepUpdate emission: target id, status, optional result payload,
optional error message. -/
structure StepUpdate where
  id : String
  status : ExecutionStepStatus
  result : Option RunValue
  error : Option String
deriving DecidableEq, Repr

/-- The action items of the batch whose target equals the given id (the
byTarget filter in executeActions). -/
def byTarget (ar : AnalysisResult) (target : String) : List ActionItem :=
  ar.actionItems.filter (fun i => i.target == target)

/-- The static data of one dispatch call in executeActions: the target id,
the logical asset name, the settings field holding the endpoint, and the
extra input record as pairs of payload key and settings key. -/
structure DispatchRow where
  target : String
  assetName : String
  serverField : String
  extraKeys : List (String × String)
deriving DecidableEq, Repr

/-- The twelve dispatch calls of executeActions in src/lib/venue.ts, in
source order, one row per await dispatch(...) call. -/
def dispatchTable : List DispatchRow := [
  ⟨"jira", "pm:executeJiraActions", "jiraServer",
    [("jiraServer", "jiraServer"), ("projectKey", "jiraProjectKey"), ("token", "jiraToken")]⟩,
  ⟨"linear", "pm:executeLinearActions", "linearServer",
    [("linearServer", "linearServer"), ("teamKey", "linearTeamKey"), ("token", "linearToken")]⟩,
  ⟨"azure-devops", "pm:executeAzureDevOpsActions", "azureServer",
    [("azureServer", "azureServer"), ("org", "azureOrg"), ("project", "azureProject"), ("token", "azureToken")]⟩,
  ⟨"github", "pm:executeGithubActions", "githubServer",
    [("githubServer", "githubServer"), ("repo", "githubRepo"), ("token", "githubToken")]⟩,
  ⟨"gitlab", "pm:executeGitLabActions", "gitlabServer",
    [("gitlabServer", "gitlabServer"), ("repo", "gitlabRepo"), ("token", "gitlabToken")]⟩,
  ⟨"slack", "pm:sendNotifications", "slackServer",
    [("slackServer", "slackServer"), ("channel", "slackChannel"), ("token", "slackToken")]⟩,
  ⟨"teams", "pm:sendTeamsNotifications", "teamsServer",
    [("teamsServer", "teamsServer"), ("channel", "teamsChannel"), ("token", "teamsToken")]⟩,
  ⟨"email", "pm:sendEmailNotifications", "emailServer",
    [("emailServer", "emailServer"), ("to", "emailTo"), ("token", "emailToken")]⟩,
  ⟨"pagerduty", "pm:createPagerDutyIncidents", "pagerdutyServer",
    [("pagerdutyServer", "pagerdutyServer"), ("serviceId", "pagerdutyServiceId"), ("token", "pagerdutyToken")]⟩,
  ⟨"sentry", "pm:linkSentryIssues", "sentryServer",
    [("sentryServer", "sentryServer"), ("project", "sentryProject"), ("token", "sentryToken")]⟩,
  ⟨"confluence", "pm:writeConfluencePages", "confluenceServer",
    [("confluenceServer", "confluenceServer"), ("spaceKey", "confluenceSpaceKey"), ("token", "confluenceToken")]⟩,
  ⟨"calendar", "pm:scheduleCalendarEvents", "calendarServer",
    [("calendarServer", "calendarServer"), ("calendarId", "calendarId"), ("token", "calendarToken")]⟩]

/-- Updates emitted plus remote calls issued by a (part of a) dispatch. -/
structure DispatchResult where
  updates : List StepUpdate
  calls : List (String × RunInput)
deriving DecidableEq, Repr

/-- The input record a dispatch call passes to venue.run: the filtered
action items, the notes, and the per-target extra fields drawn from the
settings. -/
def rowInput (row : DispatchRow) (notes : String) (ar : AnalysisResult)
    (settings : PMSettings) : RunInput :=
  .exec (byTarget ar row.target) notes
    (row.extraKeys.map (fun p => (p.1, settings p.2)))

/-- The inner dispatch closure of executeActions for one target: when the
endpoint field is non-empty, at least one batch item matches the target and
the asset id resolves, emit running, invoke the asset and emit success or
error (a thrown error is caught and its message preserved); otherwise emit
skipped with no remote call. -/
def dispatchOne (run : String → RunInput → RunResult) (notes : String)
    (ar : AnalysisResult) (settings : PMSettings)
    (assetIdMap : List (String × String)) (row : DispatchRow) : DispatchResult :=
  match mapLookup assetIdMap row.assetName with
  | some assetId =>
    if settings row.serverField != "" && (byTarget ar row.target).length > 0 then
      let input := rowInput row notes ar settings
      match run assetId input with
      | .ok v =>
        ⟨[⟨row.target, .running, none, none⟩, ⟨row.target, .success, some v, none⟩],
         [(assetId, input)]⟩
      | .err m =>
        ⟨[⟨row.target, .running, none, none⟩, ⟨row.target, .error, none, some m⟩],
         [(assetId, input)]⟩
    else ⟨[⟨row.target, .skipped, none, none⟩], []⟩
  | none => ⟨[⟨row.target, .skipped, none, none⟩], []⟩

/-- Sequential dispatch over a list of rows, concatenating the emitted
updates and issued calls in order (the awaits in executeActions run strictly
sequentially). -/
def dispatchSeq (run : String → RunInput → RunResult) (notes : String)
    (ar : AnalysisResult) (settings : PMSettings)
    (assetIdMap : List (String × String)) :
    List DispatchRow → DispatchResult
  | [] => ⟨[], []⟩
  | row :: rest =>
    let d := dispatchOne run notes ar settings assetIdMap row
    let ds := dispatchSeq run notes ar settings assetIdMap rest
    ⟨d.updates ++ ds.updates, d.calls ++ ds.calls⟩

/-- Trace of one executeActions call: the onStepUpdate emissions in order,
the remote calls issued in order, and the error the returned promise
rejected with, if any. -/
structure ExecOutcome where
  updates : List StepUpdate
  calls : List (String × RunInput)
  thrown : Option String

/-- executeActions from src/lib/venue.ts: throw Not connected to venue when
the venue is null (before any step update or remote call), otherwise run the
twelve dispatch calls of dispatchTable in order. -/
def executeActions (st : PMVenueClient) (notes : String) (ar : AnalysisResult)
    (settings : PMSettings) : ExecOutcome :=
  match st.venue with
  | none => ⟨[], [], some "Not connected to venue"⟩
  | some v =>
    let d := dispatchSeq v.run notes ar settings st.assetIdMap dispatchTable
    ⟨d.updates, d.calls, none⟩

/-- Eligibility of one dispatch row: non-empty endpoint field, at least one
matching batch item, and a resolved asset id (the condition of the if in the
dispatch closure). -/
def eligible (ar : AnalysisResult) (settings : PMSettings)
    (assetIdMap : List (String × String)) (row : DispatchRow) : Bool :=
  settings row.serverField != "" && (byTarget ar row.target).length > 0 &&
    (mapLookup assetIdMap row.assetName).isSome

/-- The updates of a trace that carry a terminal status. -/
def terminalUpdates (us : List StepUpdate) : List StepUpdate :=
  us.filter (fun u => u.status.isTerminal)

/-- The updates of a trace addressed to one target id. -/
def updatesFor (us : List StepUpdate) (target : String) : List StepUpdate :=
  us.filter (fun u => u.id == target)

/-! ## Reachability probe (src/lib/serverPing.ts)

pingServer arms a timeout that aborts the request after timeoutMs, awaits a
no-cors HEAD fetch, resolves true when the fetch resolves (any response,
opaque or non-2xx, counts), catches every rejection (network failure or the
abort) as false, and clears the timer in a finally block. The network is an
oracle mapping each URL to how its fetch would settle and after how many
milliseconds. -/

/-- How the fetch of one URL settles, and after how many ms: a response of
any HTTP status, or a rejection (DNS error, refused connection). -/
inductive NetBehavior where
  | respond (afterMs : Nat)
  | netError (msg : String) (afterMs : Nat)
deriving DecidableEq, Repr

/-- Result of one pingServer call: the boolean it resolved with, and whether
the abort timer was cleared. -/
structure PingOutcome where
  reachable : Bool
  timerCleared : Bool
deriving DecidableEq, Repr

/-- Default probe timeout of pingServer, in milliseconds. -/
def PING_TIMEOUT_MS : Nat := 5000

/-- How the awaited fetch inside pingServer settles: as the network oracle
dictates when that happens before the abort timer fires (at timeoutMs), and
as a rejection with an AbortError when the abort fires first. -/
def pingFetchResult (net : String → NetBehavior) (url : String)
    (timeoutMs : Nat) : Except String Unit :=
  match net url with
  | .respond t => if t < timeoutMs then .ok () else .error "AbortError"
  | .netError m t => if t < timeoutMs then .error m else .error "AbortError"

/-- pingServer from src/lib/serverPing.ts: await the fetch, resolve true on
any response, catch any rejection (network failure or the abort) as false,
and clear the timer in the finally block on every path. -/
def pingServer (net : String → NetBehavior) (url : String)
    (timeoutMs : Nat := PING_TIMEOUT_MS) : PingOutcome :=
  match pingFetchResult net url timeoutMs with
  | .ok _ => ⟨true, true⟩
  | .error _ => ⟨false, true⟩

/-! ## Health monitor (useHealthChecks in src/hooks/useSettings.ts)

The hook is modelled as a state machine driven by an event trace. A render
event delivers new props (a fresh settings object and/or a changed
isConnected flag); when the effect dependencies changed, both effects are
cleaned up and re-run, which cancels and re-arms their timers. Timer firings
and ping resolutions are separate events, so an event trace fixes one
interleaving of the real timer/promise scheduling; pings are modelled
individually, so resolution order is arbitrary. Ghost fields record every
round started and every ping fired, for stating the temporal claims. -/

/-- Debounce window of the settings-change effect, in milliseconds. -/
def DEBOUNCE_MS : Nat := 500

/-- The task held by the pending connection-effect timer (Effect 1, 0 ms):
clear the health map when the render was disconnected, otherwise run a check
round with the settings captured by the runChecks callback. -/
inductive Effect1Task where
  | clearHealth
  | runChecks (settings : PMSettings)

/-- Hook state: the health map and last rendered props, the two pending
timers (Effect 1 at 0 ms, Effect 2 the 500 ms debounce with its captured
settings), whether the last Effect 2 run returned a cleanup, the in-flight
pings as (serverKey, url) pairs, and the ghost logs: the target list of every
check round started and every ping ever fired. -/
structure HookState where
  health : List (String × HealthStatus)
  isConnected : Bool
  settings : PMSettings
  effect1 : Option Effect1Task
  effect2 : Option PMSettings
  effect2HasCleanup : Bool
  inflight : List (String × String)
  roundsLog : List (List (String × String))
  pingLog : List (String × String)

/-- The checkable targets of one round: every non-hidden integration whose
serverKey field is non-empty in the captured settings, as
(serverKey, url) pairs — the targets list computed at the top of runChecks. -/
def checkTargets (s : PMSettings) : List (String × String) :=
  (INTEGRATIONS.filter (fun i => !i.hidden && s i.serverKey != "")).map
    (fun i => (i.serverKey, s i.serverKey))

/-- One runChecks execution with captured settings s: with no checkable
targets, set the health map to empty and stop; otherwise mark every target
checking in one synchronous update and fire one ping per target (recorded as
in-flight; each resolves later via a resolve event). The round and its pings
are recorded in the ghost logs. -/
def runChecksStep (s : PMSettings) (st : HookState) : HookState :=
  let ts := checkTargets s
  if ts.isEmpty then
    { st with health := [], roundsLog := st.roundsLog ++ [ts] }
  else
    { st with
      health := ts.foldl (fun h p => mapInsert h p.1 .checking) st.health,
      inflight := st.inflight ++ ts,
      roundsLog := st.roundsLog ++ [ts],
      pingLog := st.pingLog ++ ts }

/-- Events driving the hook: a render (newSettings is some fresh settings
object when the settings prop is a new reference, none when it is the same
object), the firing of either pending timer, the resolution of an in-flight
ping with a reachability verdict, and a recheck() call. -/
inductive HookEvent where
  | render (newSettings : Option PMSettings) (isConnected : Bool)
  | fireEffect1
  | fireEffect2
  | resolve (idx : Nat) (reachable : Bool)
  | recheck

/-- One step of the hook. On a render whose effect dependencies changed
(fresh settings object or toggled isConnected), each effect's previous
cleanup cancels its pending timer and the effect body re-arms it: Effect 1
always schedules a 0 ms task (clear when disconnected, a round otherwise);
Effect 2 schedules the 500 ms debounced round when connected and returns no
cleanup when disconnected (its previous cleanup, when one exists, has already
cancelled the pending debounce). Firing a timer consumes it and runs its
task. Resolving an in-flight ping merges ok or unreachable for its serverKey
into the health map — the source applies this setHealth unconditionally,
with no connection or session guard. recheck() runs a round immediately when
connected and is a no-op otherwise. -/
def hookStep (st : HookState) (e : HookEvent) : HookState :=
  match e with
  | .render newSettings c =>
    let s := newSettings.getD st.settings
    let depsChanged := newSettings.isSome || c != st.isConnected
    if depsChanged then
      { st with
        settings := s, isConnected := c,
        effect1 := some (if c then .runChecks s else .clearHealth),
        effect2 := if c then some s
                   else if st.effect2HasCleanup then none else st.effect2,
        effect2HasCleanup := c }
    else { st with settings := s, isConnected := c }
  | .fireEffect1 =>
    match st.effect1 with
    | none => st
    | some .clearHealth => { st with effect1 := none, health := [] }
    | some (.runChecks s) => runChecksStep s { st with effect1 := none }
  | .fireEffect2 =>
    match st.effect2 with
    | none => st
    | some s => runChecksStep s { st with effect2 := none }
  | .resolve idx reachable =>
    match st.inflight[idx]? with
    | none => st
    | some p =>
      { st with
        inflight := st.inflight.eraseIdx idx,
        health := mapInsert st.health p.1
          (if reachable then .ok else .unreachable) }
  | .recheck => if st.isConnected then runChecksStep st.settings st else st

/-- The hook state as created by useState on mount, before the mount render
commits: empty health map, no timers, no pings. -/
def hookInit (s : PMSettings) : HookState :=
  ⟨[], false, s, none, none, false, [], [], []⟩

/-- Mounting the hook with the given props: the mount render runs both
effects for the first time. -/
def hookMount (s : PMSettings) (isConnected : Bool) : HookState :=
  hookStep (hookInit s) (.render (some s) isConnected)

/-- Run a trace of events from a state. -/
def hookRun (st : HookState) : List HookEvent → HookState
  | [] => st
  | e :: es => hookRun (hookStep st e) es

/-- A burst of configuration changes while connected: one render per fresh
settings object, with no timer firing in between. -/
def applyBurst (st : HookState) (burst : List PMSettings) : HookState :=
  burst.foldl (fun acc s => hookStep acc (.render (some s) true)) st

/-- A string is a valid health-map key when it is the serverKey of some
non-hidden registry descriptor. -/
def ValidKey (k : String) : Prop :=
  ∃ d ∈ INTEGRATIONS, d.hidden = false ∧ d.serverKey = k

/-- The health-map key invariant: every key of the health map and of every
in-flight ping is the serverKey of a non-hidden registry descriptor. -/
def HookInv (st : HookState) : Prop :=
  (∀ p ∈ st.health, ValidKey p.1) ∧ (∀ p ∈ st.inflight, ValidKey p.1)

/-! ## Lemmas about the dispatcher -/

theorem filter_cons_pos {α : Type} (p : α → Bool) (a : α) (l : List α)
    (h : p a = true) : (a :: l).filter p = a :: l.filter p :=
  List.filter_cons_of_pos h

theorem filter_cons_neg {α : Type} (p : α → Bool) (a : α) (l : List α)
    (h : p a = false) : (a :: l).filter p = l.filter p :=
  List.filter_cons_of_neg (by simp [h])

theorem isTerminal_iff (s : ExecutionStepStatus) :
    s.isTerminal = true ↔ (s = .success ∨ s = .error ∨ s = .skipped) := by
  cases s <;> simp [ExecutionStepStatus.isTerminal]

theorem dispatchOne_id (run : String → RunInput → RunResult) (notes : String)
    (ar : AnalysisResult) (settings : PMSettings)
    (assetIdMap : List (String × String)) (row : DispatchRow) :
    ∀ u ∈ (dispatchOne run notes ar settings assetIdMap row).updates,
      u.id = row.target := by
  intro u hu
  unfold dispatchOne at hu
  rcases h : mapLookup assetIdMap row.assetName with _ | aid <;> rw [h] at hu
  · simp at hu; rw [hu]
  · dsimp only at hu
    split at hu
    · rcases hr : run aid (rowInput row notes ar settings) with v | m <;>
        rw [hr] at hu <;> simp at hu <;> rcases hu with h1 | h1 <;> rw [h1]
    · simp at hu; rw [hu]

theorem dispatchOne_terminal_len (run : String → RunInput → RunResult)
    (notes : String) (ar : AnalysisResult) (settings : PMSettings)
    (assetIdMap : List (String × String)) (row : DispatchRow) :
    (terminalUpdates (dispatchOne run notes ar settings assetIdMap row).updates).length = 1 := by
  unfold dispatchOne
  rcases mapLookup assetIdMap row.assetName with _ | aid
  · rfl
  · dsimp only
    split
    · rcases run aid (rowInput row notes ar settings) with v | m <;>
        simp [terminalUpdates, ExecutionStepStatus.isTerminal]
    · rfl

theorem dispatchOne_not_eligible (run : String → RunInput → RunResult)
    (notes : String) (ar : AnalysisResult) (settings : PMSettings)
    (assetIdMap : List (String × String)) (row : DispatchRow)
    (h : eligible ar settings assetIdMap row = false) :
    dispatchOne run notes ar settings assetIdMap row =
      ⟨[⟨row.target, .skipped, none, none⟩], []⟩ := by
  unfold eligible at h
  unfold dispatchOne
  rcases hl : mapLookup assetIdMap row.assetName with _ | aid
  · rfl
  · rw [hl] at h
    simp only [Option.isSome_some, Bool.and_true] at h
    simp [h]

theorem dispatchOne_eligible (run : String → RunInput → RunResult)
    (notes : String) (ar : AnalysisResult) (settings : PMSettings)
    (assetIdMap : List (String × String)) (row : DispatchRow)
    (h : eligible ar settings assetIdMap row = true) :
    ∃ aid, mapLookup assetIdMap row.assetName = some aid ∧
      ((∀ v, run aid (rowInput row notes ar settings) = .ok v →
          dispatchOne run notes ar settings assetIdMap row =
            ⟨[⟨row.target, .running, none, none⟩, ⟨row.target, .success, some v, none⟩],
             [(aid, rowInput row notes ar settings)]⟩) ∧
       (∀ msg, run aid (rowInput row notes ar settings) = .err msg →
          dispatchOne run notes ar settings assetIdMap row =
            ⟨[⟨row.target, .running, none, none⟩, ⟨row.target, .error, none, some msg⟩],
             [(aid, rowInput row notes ar settings)]⟩)) := by
  unfold eligible at h
  rcases hl : mapLookup assetIdMap row.assetName with _ | aid
  · rw [hl] at h; simp at h
  · rw [hl] at h
    simp only [Option.isSome_some, Bool.and_true] at h
    refine ⟨aid, rfl, ?_, ?_⟩ <;> intro x hx <;>
      · unfold dispatchOne
        rw [hl]
        simp only [h, if_true]
        rw [hx]

theorem dispatchOne_calls_len (run : String → RunInput → RunResult)
    (notes : String) (ar : AnalysisResult) (settings : PMSettings)
    (assetIdMap : List (String × String)) (row : DispatchRow) :
    (dispatchOne run notes ar settings assetIdMap row).calls.length =
      if eligible ar settings assetIdMap row then 1 else 0 := by
  rcases he : eligible ar settings assetIdMap row
  · rw [dispatchOne_not_eligible run notes ar settings assetIdMap row he]; rfl
  · obtain ⟨aid, _, hok, herr⟩ :=
      dispatchOne_eligible run notes ar settings assetIdMap row he
    rcases hr : run aid (rowInput row notes ar settings) with v | m
    · rw [hok v hr]; rfl
    · rw [herr m hr]; rfl

theorem updatesFor_append (a b : List StepUpdate) (t : String) :
    updatesFor (a ++ b) t = updatesFor a t ++ updatesFor b t := by
  unfold updatesFor; exact List.filter_append _ _

theorem terminalUpdates_append (a b : List StepUpdate) :
    terminalUpdates (a ++ b) = terminalUpdates a ++ terminalUpdates b := by
  unfold terminalUpdates; exact List.filter_append _ _

theorem terminalUpdates_status (us : List StepUpdate) :
    ∀ u ∈ terminalUpdates us,
      u.status = .success ∨ u.status = .error ∨ u.status = .skipped := by
  intro u hu
  unfold terminalUpdates at hu
  exact (isTerminal_iff u.status).mp (List.mem_filter.mp hu).2

theorem updatesFor_dispatchSeq (run : String → RunInput → RunResult)
    (notes : String) (ar : AnalysisResult) (settings : PMSettings)
    (assetIdMap : List (String × String)) (rows : List DispatchRow) (t : String) :
    updatesFor (dispatchSeq run notes ar settings assetIdMap rows).updates t =
      (dispatchSeq run notes ar settings assetIdMap
        (rows.filter (fun r => r.target == t))).updates := by
  induction rows with
  | nil => rfl
  | cons row rest ih =>
    show updatesFor ((dispatchOne run notes ar settings assetIdMap row).updates ++
        (dispatchSeq run notes ar settings assetIdMap rest).updates) t = _
    rw [updatesFor_append, ih]
    rcases hrt : (row.target == t) with _ | _
    · have hnone : updatesFor (dispatchOne run notes ar settings assetIdMap row).updates t = [] := by
        unfold updatesFor
        rw [List.filter_eq_nil_iff]
        intro u hu
        rw [dispatchOne_id run notes ar settings assetIdMap row u hu]
        simp [hrt]
      rw [hnone, filter_cons_neg (fun r => r.target == t) row rest hrt]
      rfl
    · have hall : updatesFor (dispatchOne run notes ar settings assetIdMap row).updates t =
          (dispatchOne run notes ar settings assetIdMap row).updates := by
        unfold updatesFor
        rw [List.filter_eq_self]
        intro u hu
        rw [dispatchOne_id run notes ar settings assetIdMap row u hu]
        exact hrt
      rw [hall, filter_cons_pos (fun r => r.target == t) row rest hrt]
      rfl

theorem dispatchSeq_terminal_len (run : String → RunInput → RunResult)
    (notes : String) (ar : AnalysisResult) (settings : PMSettings)
    (assetIdMap : List (String × String)) (rows : List DispatchRow) :
    (terminalUpdates (dispatchSeq run notes ar settings assetIdMap rows).updates).length =
      rows.length := by
  induction rows with
  | nil => rfl
  | cons row rest ih =>
    show (terminalUpdates ((dispatchOne run notes ar settings assetIdMap row).updates ++
        (dispatchSeq run notes ar settings assetIdMap rest).updates)).length = _
    rw [terminalUpdates_append, List.length_append, ih,
      dispatchOne_terminal_len run notes ar settings assetIdMap row]
    simp [Nat.add_comm]

theorem dispatchSeq_calls_len (run : String → RunInput → RunResult)
    (notes : String) (ar : AnalysisResult) (settings : PMSettings)
    (assetIdMap : List (String × String)) (rows : List DispatchRow) :
    (dispatchSeq run notes ar settings assetIdMap rows).calls.length =
      (rows.filter (fun r => eligible ar settings assetIdMap r)).length := by
  induction rows with
  | nil => rfl
  | cons row rest ih =>
    show ((dispatchOne run notes ar settings assetIdMap row).calls ++
        (dispatchSeq run notes ar settings assetIdMap rest).calls).length = _
    rw [List.length_append, ih, dispatchOne_calls_len run notes ar settings assetIdMap row]
    rcases he : eligible ar settings assetIdMap row
    · rw [filter_cons_neg (fun r => eligible ar settings assetIdMap r) row rest he]
      simp
    · rw [filter_cons_pos (fun r => eligible ar settings assetIdMap r) row rest he]
      simp [Nat.add_comm]

theorem dispatchSeq_empty_map (run : String → RunInput → RunResult)
    (notes : String) (ar : AnalysisResult) (settings : PMSettings)
    (rows : List DispatchRow) :
    dispatchSeq run notes ar settings [] rows =
      ⟨rows.map (fun r => ⟨r.target, .skipped, none, none⟩), []⟩ := by
  induction rows with
  | nil => rfl
  | cons row rest ih =>
    show (⟨(dispatchOne run notes ar settings [] row).updates ++
        (dispatchSeq run notes ar settings [] rest).updates,
        (dispatchOne run notes ar settings [] row).calls ++
        (dispatchSeq run notes ar settings [] rest).calls⟩ : DispatchResult) = _
    rw [ih]
    have h1 : dispatchOne run notes ar settings [] row =
        ⟨[⟨row.target, .skipped, none, none⟩], []⟩ := rfl
    rw [h1]
    rfl

theorem filter_target_singleton (rows : List DispatchRow) (row : DispatchRow)
    (hnd : (rows.map (fun r => r.target)).Nodup) (hmem : row ∈ rows) :
    rows.filter (fun r => r.target == row.target) = [row] := by
  induction rows with
  | nil => cases hmem
  | cons r rest ih =>
    rw [List.map_cons, List.nodup_cons] at hnd
    rcases List.mem_cons.mp hmem with heq | hr
    · subst heq
      rw [filter_cons_pos (fun r2 => r2.target == row.target) row rest (by simp)]
      have : rest.filter (fun r2 => r2.target == row.target) = [] := by
        rw [List.filter_eq_nil_iff]
        intro r2 hr2 hc
        exact hnd.1 (by
          rw [← (by simpa using hc : r2.target = row.target)]
          exact List.mem_map_of_mem _ hr2)
      rw [this]
    · have hne : r.target ≠ row.target := by
        intro hc
        exact hnd.1 (hc ▸ List.mem_map_of_mem _ hr)
      rw [filter_cons_neg (fun r2 => r2.target == row.target) r rest (by simp [hne])]
      exact ih hnd.2 hr

theorem dispatchTable_targets_nodup :
    (dispatchTable.map (fun r => r.target)).Nodup := by decide

/-! ## Dispatcher claims -/

/-- C1 (partial-failure isolation): in a batch where exactly one eligible
target's remote invocation throws, the dispatcher emits running then error
for that target with the thrown message preserved verbatim, and every target
of the dispatch order — the failing one, the earlier ones and the later ones
— still receives exactly one terminal status update. -/
theorem partial_failure_isolation
    (st : PMVenueClient) (v : Venue) (hconn : st.venue = some v)
    (notes : String) (ar : AnalysisResult) (settings : PMSettings)
    (row : DispatchRow) (hrow : row ∈ dispatchTable)
    (aid : String) (haid : mapLookup st.assetIdMap row.assetName = some aid)
    (helig : eligible ar settings st.assetIdMap row = true)
    (m : String) (herr : v.run aid (rowInput row notes ar settings) = .err m)
    (honly : ∀ row2 ∈ dispatchTable, row2.target ≠ row.target →
      ∀ u ∈ (dispatchOne v.run notes ar settings st.assetIdMap row2).updates,
        u.status ≠ .error) :
    updatesFor (executeActions st notes ar settings).updates row.target =
      [⟨row.target, .running, none, none⟩, ⟨row.target, .error, none, some m⟩] ∧
    ∀ row2 ∈ dispatchTable,
      (terminalUpdates (updatesFor (executeActions st notes ar settings).updates
        row2.target)).length = 1 := by
  have hexec : (executeActions st notes ar settings).updates =
      (dispatchSeq v.run notes ar settings st.assetIdMap dispatchTable).updates := by
    unfold executeActions; rw [hconn]
  constructor
  · rw [hexec, updatesFor_dispatchSeq,
      filter_target_singleton dispatchTable row dispatchTable_targets_nodup hrow]
    obtain ⟨aid2, haid2, _, herr2⟩ :=
      dispatchOne_eligible v.run notes ar settings st.assetIdMap row helig
    rw [haid] at haid2
    cases haid2
    have hone := herr2 m herr
    show (dispatchOne v.run notes ar settings st.assetIdMap row).updates ++
      (dispatchSeq v.run notes ar settings st.assetIdMap []).updates = _
    rw [hone]
    rfl
  · intro row2 hrow2
    rw [hexec, updatesFor_dispatchSeq,
      filter_target_singleton dispatchTable row2 dispatchTable_targets_nodup hrow2]
    exact dispatchSeq_terminal_len v.run notes ar settings st.assetIdMap [row2]

/-- Witness for C1 at a concrete input: the jira target is eligible, its
asset invocation throws boom, and the emitted trace for jira is running then
error with the message preserved. -/
theorem partial_failure_isolation_witness :
    updatesFor (executeActions
      ⟨some ⟨"v", fun _ => .ok (), .ok [], fun aid _ =>
          if aid == "A1" then .err "boom" else .ok ⟨none, none, "r"⟩⟩,
        true, [("pm:executeJiraActions", "A1")]⟩
      "notes" ⟨[⟨"create_issue", "d", none, "high", "jira"⟩], [], []⟩
      (fun k => if k == "jiraServer" then "http://jira" else "")).updates "jira" =
      [⟨"jira", .running, none, none⟩, ⟨"jira", .error, none, some "boom"⟩] :=
  (partial_failure_isolation _ _ rfl _ _ _
    ⟨"jira", "pm:executeJiraActions", "jiraServer",
      [("jiraServer", "jiraServer"), ("projectKey", "jiraProjectKey"),
       ("token", "jiraToken")]⟩
    (by decide) "A1" (by decide) (by decide) "boom" (by decide) (by decide)).1

/-- C2 as stated is false: with an active connection the dispatcher emits 12
terminal step updates (one per dispatch call), while the INTEGRATIONS
registry has 21 descriptors. -/
theorem completeness_counterexample :
    (terminalUpdates (executeActions
      ⟨some ⟨"v", fun _ => .ok (), .ok [], fun _ _ => .ok ⟨none, none, "r"⟩⟩,
        true, []⟩
      "n" ⟨[], [], []⟩ (fun _ => "")).updates).length = 12 ∧
    INTEGRATIONS.length = 21 ∧ (12 : Nat) ≠ 21 := by decide

/-- C2 amended (completeness): for every call with an active connection,
every dispatch target of the dispatch table — the 12 execution integrations,
not all 21 registry descriptors — receives exactly one terminal status
update, each of which is success, error or skipped. -/
theorem completeness_amended
    (st : PMVenueClient) (v : Venue) (hconn : st.venue = some v)
    (notes : String) (ar : AnalysisResult) (settings : PMSettings) :
    (terminalUpdates (executeActions st notes ar settings).updates).length =
      dispatchTable.length ∧
    dispatchTable.length = 12 ∧
    (∀ u ∈ terminalUpdates (executeActions st notes ar settings).updates,
      u.status = .success ∨ u.status = .error ∨ u.status = .skipped) ∧
    (∀ row ∈ dispatchTable,
      (terminalUpdates (updatesFor (executeActions st notes ar settings).updates
        row.target)).length = 1) := by
  have hexec : (executeActions st notes ar settings).updates =
      (dispatchSeq v.run notes ar settings st.assetIdMap dispatchTable).updates := by
    unfold executeActions; rw [hconn]
  refine ⟨?_, rfl, ?_, ?_⟩
  · rw [hexec]
    exact dispatchSeq_terminal_len v.run notes ar settings st.assetIdMap dispatchTable
  · rw [hexec]
    exact terminalUpdates_status _
  · intro row hrow
    rw [hexec, updatesFor_dispatchSeq,
      filter_target_singleton dispatchTable row dispatchTable_targets_nodup hrow]
    exact dispatchSeq_terminal_len v.run notes ar settings st.assetIdMap [row]

/-- Witness for the amended C2 at a concrete connected client. -/
theorem completeness_amended_witness :
    (terminalUpdates (executeActions
      ⟨some ⟨"v", fun _ => .ok (), .ok [], fun _ _ => .ok ⟨none, none, "r"⟩⟩,
        true, []⟩
      "n" ⟨[], [], []⟩ (fun _ => "")).updates).length = dispatchTable.length :=
  (completeness_amended _ _ rfl _ _ _).1

/-- C3 (skip correctness): an ineligible target (empty endpoint field, or no
matching batch item, or unresolved asset id) receives exactly the single
update skipped — no running and no error; an eligible target receives
running followed by one terminal success or error update; the number of
remote calls issued equals the number of eligible dispatch rows, so no
remote call is made for a skipped target; and the call itself raises no
error. -/
theorem skip_correctness
    (st : PMVenueClient) (v : Venue) (hconn : st.venue = some v)
    (notes : String) (ar : AnalysisResult) (settings : PMSettings)
    (row : DispatchRow) (hrow : row ∈ dispatchTable) :
    (eligible ar settings st.assetIdMap row = false →
      updatesFor (executeActions st notes ar settings).updates row.target =
        [⟨row.target, .skipped, none, none⟩]) ∧
    (eligible ar settings st.assetIdMap row = true →
      ∃ term : StepUpdate,
        updatesFor (executeActions st notes ar settings).updates row.target =
          [⟨row.target, .running, none, none⟩, term] ∧
        (term.status = .success ∨ term.status = .error)) ∧
    (executeActions st notes ar settings).calls.length =
      (dispatchTable.filter (fun r => eligible ar settings st.assetIdMap r)).length ∧
    (executeActions st notes ar settings).thrown = none := by
  have hexec : executeActions st notes ar settings =
      ⟨(dispatchSeq v.run notes ar settings st.assetIdMap dispatchTable).updates,
       (dispatchSeq v.run notes ar settings st.assetIdMap dispatchTable).calls,
       none⟩ := by
    unfold executeActions; rw [hconn]
  have hfor : updatesFor (executeActions st notes ar settings).updates row.target =
      (dispatchOne v.run notes ar settings st.assetIdMap row).updates ++
      (dispatchSeq v.run notes ar settings st.assetIdMap []).updates := by
    rw [hexec]
    show updatesFor (dispatchSeq v.run notes ar settings st.assetIdMap dispatchTable).updates
      row.target = _
    rw [updatesFor_dispatchSeq,
      filter_target_singleton dispatchTable row dispatchTable_targets_nodup hrow]
    rfl
  refine ⟨?_, ?_, ?_, ?_⟩
  · intro hne
    rw [hfor, dispatchOne_not_eligible v.run notes ar settings st.assetIdMap row hne]
    rfl
  · intro he
    obtain ⟨aid, _, hok, herr⟩ :=
      dispatchOne_eligible v.run notes ar settings st.assetIdMap row he
    rcases hr : v.run aid (rowInput row notes ar settings) with val | m
    · refine ⟨⟨row.target, .success, some val, none⟩, ?_, Or.inl rfl⟩
      rw [hfor, hok val hr]; rfl
    · refine ⟨⟨row.target, .error, none, some m⟩, ?_, Or.inr rfl⟩
      rw [hfor, herr m hr]; rfl
  · rw [hexec]
    exact dispatchSeq_calls_len v.run notes ar settings st.assetIdMap dispatchTable
  · rw [hexec]

/-- Witness for C3 at a concrete input: the jira target has no configured
endpoint, so its trace is the single skipped update. -/
theorem skip_correctness_witness :
    updatesFor (executeActions
      ⟨some ⟨"v", fun _ => .ok (), .ok [], fun _ _ => .ok ⟨none, none, "r"⟩⟩,
        true, []⟩
      "n" ⟨[⟨"create_issue", "d", none, "high", "jira"⟩], [], []⟩
      (fun _ => "")).updates "jira" = [⟨"jira", .skipped, none, none⟩] :=
  (skip_correctness _ _ rfl _ _ _
    ⟨"jira", "pm:executeJiraActions", "jiraServer",
      [("jiraServer", "jiraServer"), ("projectKey", "jiraProjectKey"),
       ("token", "jiraToken")]⟩
    (by decide)).1 (by decide)

/-- C4 (not-connected precondition): executeActions rejects with the exact
message Not connected to venue precisely when the venue is null, and then no
step update has been emitted and no remote call issued; fetchTranscript
rejects with its not-connected error precisely when the venue is null (its
other throw sites are the distinct asset-not-found and remote errors), and
then it has issued no remote call. -/
theorem not_connected_precondition
    (st : PMVenueClient) (notes : String) (ar : AnalysisResult)
    (settings : PMSettings) (source : TranscriptSource) (callRef : String)
    (fsettings : PMSettings) :
    ((executeActions st notes ar settings).thrown = some "Not connected to venue" ↔
      st.venue = none) ∧
    (st.venue = none → (executeActions st notes ar settings).updates = [] ∧
      (executeActions st notes ar settings).calls = []) ∧
    ((fetchTranscript st source callRef fsettings).result = .error .notConnected ↔
      st.venue = none) ∧
    (st.venue = none → (fetchTranscript st source callRef fsettings).calls = []) := by
  rcases hv : st.venue with _ | v
  · refine ⟨by simp [executeActions, hv], ?_, by simp [fetchTranscript, hv], ?_⟩
    · intro _; exact ⟨by simp [executeActions, hv], by simp [executeActions, hv]⟩
    · intro _; simp [fetchTranscript, hv]
  · refine ⟨?_, ?_, ?_, ?_⟩
    · constructor
      · intro h
        exfalso
        revert h
        simp only [executeActions, hv]
        intro h
        cases h
      · intro h; exact Option.noConfusion h
    · intro h; exact Option.noConfusion h
    · constructor
      · intro h
        exfalso
        revert h
        simp only [fetchTranscript, hv]
        rcases mapLookup st.assetIdMap (fetchAssetName source) with _ | aid
        · intro h
          exact FetchError.noConfusion (Except.error.inj h)
        · dsimp only
          rcases v.run aid (RunInput.fetch callRef
            (fsettings (fetchServerKey source)) (fsettings (fetchTokenKey source))) with val | m
          · intro h
            exact Except.noConfusion h
          · intro h
            exact FetchError.noConfusion (Except.error.inj h)
      · intro h; exact Option.noConfusion h
    · intro h; exact Option.noConfusion h

/-- Witness for C4 at a concrete input: a fresh, never-connected client
rejects before any partial work. -/
theorem not_connected_precondition_witness :
    (executeActions PMVenueClient.init "n" ⟨[], [], []⟩ (fun _ => "")).updates = [] ∧
    (executeActions PMVenueClient.init "n" ⟨[], [], []⟩ (fun _ => "")).calls = [] :=
  (not_connected_precondition PMVenueClient.init "n" ⟨[], [], []⟩ (fun _ => "")
    .granola "ref" (fun _ => "")).2.1 rfl

/-- C10 (listing failure degrades to skip): when the post-deployment
getAssets query throws, connect still resolves successfully, the resolved
asset map is empty, and every subsequent executeActions call emits skipped
for every dispatch target, makes no remote call and raises no error. -/
theorem listing_failure_skips_all
    (v : Venue) (e : String) (hga : v.getAssets = .error e)
    (assets : List AssetMetadata) :
    connect PMVenueClient.init (.ok v) assets =
      .ok (⟨some v, true, []⟩, assets.map (deployOne v)) ∧
    ∀ notes ar settings,
      (executeActions ⟨some v, true, []⟩ notes ar settings).thrown = none ∧
      (executeActions ⟨some v, true, []⟩ notes ar settings).updates =
        dispatchTable.map (fun r => ⟨r.target, .skipped, none, none⟩) ∧
      (executeActions ⟨some v, true, []⟩ notes ar settings).calls = [] := by
  constructor
  · show Except.ok (ensureAssets ⟨some v, false, []⟩ assets) = _
    unfold ensureAssets
    simp [buildAssetIdMap, hga]
  · intro notes ar settings
    have hexec : executeActions ⟨some v, true, []⟩ notes ar settings =
        ⟨(dispatchSeq v.run notes ar settings [] dispatchTable).updates,
         (dispatchSeq v.run notes ar settings [] dispatchTable).calls, none⟩ := rfl
    rw [hexec, dispatchSeq_empty_map]
    exact ⟨rfl, rfl, rfl⟩

/-- Witness for C10 at a concrete venue whose getAssets throws. -/
theorem listing_failure_skips_all_witness :
    connect PMVenueClient.init
      (.ok ⟨"v", fun _ => .ok (), .error "boom", fun _ _ => .ok ⟨none, none, "r"⟩⟩) [] =
      .ok (⟨some ⟨"v", fun _ => .ok (), .error "boom", fun _ _ => .ok ⟨none, none, "r"⟩⟩,
        true, []⟩, []) :=
  (listing_failure_skips_all _ "boom" rfl []).1

/-! ## Deployment claims -/

/-- C5 as stated is false: a definition whose metadata carries no name is
skipped with a warning before any createAsset call, so not every definition
in the list is attempted. -/
theorem idempotent_deployment_counterexample :
    (ensureAssets
      ⟨some ⟨"v", fun _ => .ok (), .ok [], fun _ _ => .ok ⟨none, none, "r"⟩⟩,
        false, []⟩ [⟨none⟩]).2 = [.skippedNoName] ∧
    attemptedNames (ensureAssets
      ⟨some ⟨"v", fun _ => .ok (), .ok [], fun _ _ => .ok ⟨none, none, "r"⟩⟩,
        false, []⟩ [⟨none⟩]).2 = [] ∧
    ([(⟨none⟩ : AssetMetadata)]).length = 1 := by decide

/-- C5 amended (idempotent deployment): a deployment pass attempts the
registration of every definition that carries a name — a nameless definition
is skipped with a warning — and never propagates a per-definition failure:
the outcome log covers the whole list (no failure aborts the remaining
registrations), a conflict error (409 / already exists) is classified as
already-existing and treated as success, and only other errors are logged as
deployment issues; hence re-deploying an identical named definition never
raises a visible error. -/
theorem idempotent_deployment_amended
    (st : PMVenueClient) (v : Venue) (hconn : st.venue = some v)
    (hflag : st.assetsDeployed = false) (assets : List AssetMetadata) :
    (ensureAssets st assets).2.length = assets.length ∧
    (∀ a ∈ assets, ∀ n, a.name = some n →
      n ∈ attemptedNames (ensureAssets st assets).2) ∧
    (∀ a ∈ assets, ∀ n m, a.name = some n → v.createAsset a = .error m →
      isConflictMsg m = true →
      DeployOutcome.alreadyExists n ∈ (ensureAssets st assets).2) ∧
    (∀ a ∈ assets, ∀ n m, a.name = some n → v.createAsset a = .error m →
      isConflictMsg m = false →
      DeployOutcome.failed n m ∈ (ensureAssets st assets).2) := by
  have hlog : (ensureAssets st assets).2 = assets.map (deployOne v) := by
    unfold ensureAssets
    rw [hconn]
    simp [hflag]
  rw [hlog]
  refine ⟨List.length_map assets (deployOne v), ?_, ?_, ?_⟩
  · intro a ha n hn
    refine List.mem_filterMap.mpr ⟨deployOne v a, List.mem_map_of_mem _ ha, ?_⟩
    unfold deployOne
    rw [hn]
    dsimp only
    rcases v.createAsset a with m | _
    · dsimp only
      rcases hc : isConflictMsg m <;> simp [hc]
    · rfl
  · intro a ha n m hn hca hc
    have hd : deployOne v a = .alreadyExists n := by
      unfold deployOne; rw [hn, hca]; simp [hc]
    rw [← hd]
    exact List.mem_map_of_mem _ ha
  · intro a ha n m hn hca hc
    have hd : deployOne v a = .failed n m := by
      unfold deployOne; rw [hn, hca]; simp [hc]
    rw [← hd]
    exact List.mem_map_of_mem _ ha

/-- Witness for the amended C5: the same named definition appears twice, the
substrate reports a 409 conflict, and the pass classifies it as already
existing instead of failing. -/
theorem idempotent_deployment_amended_witness :
    DeployOutcome.alreadyExists "pm:a" ∈
      (ensureAssets
        ⟨some ⟨"v", fun _ => .error "409 Conflict", .ok [],
            fun _ _ => .ok ⟨none, none, "r"⟩⟩,
          false, []⟩ [⟨some "pm:a"⟩, ⟨some "pm:a"⟩]).2 :=
  (idempotent_deployment_amended _ _ rfl rfl _).2.2.1
    ⟨some "pm:a"⟩ (by decide) "pm:a" "409 Conflict" rfl rfl (by decide)

/-! ## Probe claim -/

/-- Normal form of one pingServer call: the outcome depends only on how the
fetch of the URL settles relative to the timeout. -/
theorem pingServer_eq (net : String → NetBehavior) (url : String)
    (timeoutMs : Nat) :
    pingServer net url timeoutMs =
      match net url with
      | .respond t => if t < timeoutMs then ⟨true, true⟩ else ⟨false, true⟩
      | .netError _ _ => ⟨false, true⟩ := by
  unfold pingServer pingFetchResult
  rcases net url with t | ⟨m, t⟩
  · by_cases hlt : t < timeoutMs <;> simp [hlt]
  · by_cases hlt : t < timeoutMs <;> simp [hlt]

/-- C9 (probe semantics): pingServer always returns a boolean and always
clears its abort timer; it resolves true exactly when the fetch resolves
with some response before the timeout, and false when the fetch rejects or
when no response arrives within the timeout (the abort fires); the default
timeout is 5000 ms. -/
theorem probe_semantics (net : String → NetBehavior) (url : String)
    (timeoutMs : Nat) :
    (pingServer net url timeoutMs).timerCleared = true ∧
    ((pingServer net url timeoutMs).reachable = true ↔
      ∃ t, net url = .respond t ∧ t < timeoutMs) ∧
    pingServer net url = pingServer net url PING_TIMEOUT_MS ∧
    PING_TIMEOUT_MS = 5000 := by
  refine ⟨?_, ?_, rfl, rfl⟩
  · rw [pingServer_eq]
    rcases net url with t | ⟨m, t⟩
    · show (if t < timeoutMs then (⟨true, true⟩ : PingOutcome)
          else ⟨false, true⟩).timerCleared = true
      by_cases hlt : t < timeoutMs
      · rw [if_pos hlt]
      · rw [if_neg hlt]
    · rfl
  · rw [pingServer_eq]
    rcases hn : net url with t | ⟨m, t⟩
    · show (if t < timeoutMs then (⟨true, true⟩ : PingOutcome)
          else ⟨false, true⟩).reachable = true ↔
        ∃ t2, NetBehavior.respond t = .respond t2 ∧ t2 < timeoutMs
      by_cases hlt : t < timeoutMs
      · rw [if_pos hlt]
        exact ⟨fun _ => ⟨t, rfl, hlt⟩, fun _ => rfl⟩
      · rw [if_neg hlt]
        constructor
        · intro h; cases h
        · rintro ⟨t2, ht2, h2⟩
          injection ht2 with he
          subst he
          exact absurd h2 hlt
    · show ((⟨false, true⟩ : PingOutcome)).reachable = true ↔
        ∃ t2, NetBehavior.netError m t = .respond t2 ∧ t2 < timeoutMs
      constructor
      · intro h; cases h
      · rintro ⟨t2, ht2, _⟩
        exact NetBehavior.noConfusion ht2

/-! ## Health monitor lemmas -/

theorem mem_mapInsert {α : Type} (m : List (String × α)) (k : String) (v : α) :
    ∀ p ∈ mapInsert m k v, p ∈ m ∨ p.1 = k := by
  intro p hp
  unfold mapInsert at hp
  split at hp
  · rcases List.mem_map.mp hp with ⟨q, hq, hqe⟩
    split at hqe
    · right; rw [← hqe]
    · left; rw [← hqe]; exact hq
  · rcases List.mem_append.mp hp with h | h
    · left; exact h
    · right
      simp only [List.mem_singleton] at h
      rw [h]

theorem validKey_checkTargets (s : PMSettings) :
    ∀ p ∈ checkTargets s, ValidKey p.1 := by
  intro p hp
  unfold checkTargets at hp
  rcases List.mem_map.mp hp with ⟨i, hi, hie⟩
  have hi2 := List.mem_filter.mp hi
  have hh : i.hidden = false := by
    have := hi2.2
    simp only [Bool.and_eq_true, Bool.not_eq_true'] at this
    exact this.1
  exact ⟨i, hi2.1, hh, by rw [← hie]⟩

theorem foldl_checking_valid (ts : List (String × String)) :
    ∀ h0 : List (String × HealthStatus),
      (∀ p ∈ h0, ValidKey p.1) → (∀ q ∈ ts, ValidKey q.1) →
      ∀ p ∈ ts.foldl (fun h q => mapInsert h q.1 HealthStatus.checking) h0,
        ValidKey p.1 := by
  induction ts with
  | nil => intro h0 hh _ p hp; exact hh p hp
  | cons q rest ih =>
    intro h0 hh hq p hp
    refine ih (mapInsert h0 q.1 .checking) ?_
      (fun r hr => hq r (List.mem_cons_of_mem _ hr)) p hp
    intro p2 hp2
    rcases mem_mapInsert h0 q.1 .checking p2 hp2 with h | h
    · exact hh p2 h
    · rw [h]
      exact hq q (List.mem_cons_self _ _)

theorem runChecksStep_inv (s : PMSettings) (st : HookState) (h : HookInv st) :
    HookInv (runChecksStep s st) := by
  unfold runChecksStep
  rcases hts : (checkTargets s).isEmpty
  · simp only [hts, Bool.false_eq_true, if_false]
    constructor
    · exact foldl_checking_valid (checkTargets s) st.health h.1 (validKey_checkTargets s)
    · intro p hp
      rcases List.mem_append.mp hp with h2 | h2
      · exact h.2 p h2
      · exact validKey_checkTargets s p h2
  · simp only [hts, if_true]
    exact ⟨fun p hp => absurd hp (List.not_mem_nil p), h.2⟩

theorem hookStep_inv (st : HookState) (e : HookEvent) (h : HookInv st) :
    HookInv (hookStep st e) := by
  rcases e with ⟨ns, c⟩ | _ | _ | ⟨idx, r⟩ | _
  · simp only [hookStep]
    split
    · exact ⟨h.1, h.2⟩
    · exact ⟨h.1, h.2⟩
  · simp only [hookStep]
    rcases he1 : st.effect1 with _ | t
    · exact h
    · rcases t with _ | s2
      · exact ⟨fun p hp => absurd hp (List.not_mem_nil p), h.2⟩
      · exact runChecksStep_inv s2 _ ⟨h.1, h.2⟩
  · simp only [hookStep]
    rcases he2 : st.effect2 with _ | s2
    · exact h
    · exact runChecksStep_inv s2 _ ⟨h.1, h.2⟩
  · simp only [hookStep]
    rcases hi : st.inflight[idx]? with _ | p
    · exact h
    · constructor
      · intro q hq
        rcases mem_mapInsert st.health p.1 _ q hq with h2 | h2
        · exact h.1 q h2
        · rw [h2]
          exact h.2 p (List.getElem?_mem hi)
      · intro q hq
        exact h.2 q (List.eraseIdx_subset st.inflight idx hq)
  · simp only [hookStep]
    split
    · exact runChecksStep_inv st.settings st h
    · exact h

theorem hookRun_inv (events : List HookEvent) :
    ∀ st : HookState, HookInv st → HookInv (hookRun st events) := by
  induction events with
  | nil => intro st h; exact h
  | cons e rest ih =>
    intro st h
    exact ih (hookStep st e) (hookStep_inv st e h)

theorem hookMount_inv (s : PMSettings) (c : Bool) : HookInv (hookMount s c) :=
  hookStep_inv (hookInit s) _
    ⟨fun p hp => absurd hp (List.not_mem_nil p),
     fun p hp => absurd hp (List.not_mem_nil p)⟩

/-! ## Health monitor claims -/

theorem runChecksStep_logs (s : PMSettings) (st : HookState) :
    (runChecksStep s st).roundsLog = st.roundsLog ++ [checkTargets s] ∧
    (runChecksStep s st).pingLog = st.pingLog ++ checkTargets s ∧
    (runChecksStep s st).effect1 = st.effect1 ∧
    (runChecksStep s st).effect2 = st.effect2 := by
  unfold runChecksStep
  rcases hts : (checkTargets s).isEmpty
  · simp [hts]
  · have hnil : checkTargets s = [] := List.isEmpty_iff.mp hts
    simp [hts, hnil]

theorem applyBurst_last (st : HookState) (burst : List PMSettings)
    (slast : PMSettings) :
    applyBurst st (burst ++ [slast]) =
      { st with
        settings := slast, isConnected := true,
        effect1 := some (.runChecks slast), effect2 := some slast,
        effect2HasCleanup := true } := by
  induction burst generalizing st with
  | nil =>
    show hookStep st (.render (some slast) true) = _
    rfl
  | cons s2 rest ih =>
    show applyBurst (hookStep st (.render (some s2) true)) (rest ++ [slast]) = _
    rw [ih]
    rfl

theorem fire_both (stB : HookState) (s : PMSettings)
    (h1 : stB.effect1 = some (.runChecks s)) (h2 : stB.effect2 = some s) :
    (hookRun stB [.fireEffect1, .fireEffect2]).roundsLog =
      stB.roundsLog ++ [checkTargets s, checkTargets s] ∧
    (hookRun stB [.fireEffect1, .fireEffect2]).pingLog =
      stB.pingLog ++ (checkTargets s ++ checkTargets s) := by
  have e1 : hookStep stB .fireEffect1 = runChecksStep s { stB with effect1 := none } := by
    simp only [hookStep, h1]
  have hx : (runChecksStep s { stB with effect1 := none }).effect2 = some s :=
    ((runChecksStep_logs s _).2.2.2).trans h2
  have e2 : hookStep (runChecksStep s { stB with effect1 := none }) .fireEffect2 =
      runChecksStep s
        { runChecksStep s { stB with effect1 := none } with effect2 := none } := by
    simp only [hookStep, hx]
  show (hookStep (hookStep stB .fireEffect1) .fireEffect2).roundsLog = _ ∧
    (hookStep (hookStep stB .fireEffect1) .fireEffect2).pingLog = _
  rw [e1, e2]
  constructor
  · rw [(runChecksStep_logs s _).1]
    show (runChecksStep s { stB with effect1 := none }).roundsLog ++
      [checkTargets s] = _
    rw [(runChecksStep_logs s _).1]
    show stB.roundsLog ++ [checkTargets s] ++ [checkTargets s] = _
    rw [List.append_assoc]
    rfl
  · rw [(runChecksStep_logs s _).2.1]
    show (runChecksStep s { stB with effect1 := none }).pingLog ++
      checkTargets s = _
    rw [(runChecksStep_logs s _).2.1]
    show stB.pingLog ++ checkTargets s ++ checkTargets s = _
    rw [List.append_assoc]

/-- C6 as stated is false: after a quiescent connected state (2 rounds from
the mount), a burst of three configuration changes triggers TWO further
check rounds — the re-armed 0 ms connection-effect round and the 500 ms
debounced round — not one; both probes do use only the final URL. -/
theorem debounce_collapsing_counterexample :
    (hookRun (hookMount (fun _ => "") true)
      [.fireEffect1, .fireEffect2]).roundsLog.length = 2 ∧
    (hookRun (hookMount (fun _ => "") true)
      [.fireEffect1, .fireEffect2,
       .render (some (fun k => if k = "jiraServer" then "http://jira-1.test" else "")) true,
       .render (some (fun k => if k = "jiraServer" then "http://jira-2.test" else "")) true,
       .render (some (fun k => if k = "jiraServer" then "http://jira-3.test" else "")) true,
       .fireEffect1, .fireEffect2]).roundsLog.length = 4 ∧
    (hookRun (hookMount (fun _ => "") true)
      [.fireEffect1, .fireEffect2,
       .render (some (fun k => if k = "jiraServer" then "http://jira-1.test" else "")) true,
       .render (some (fun k => if k = "jiraServer" then "http://jira-2.test" else "")) true,
       .render (some (fun k => if k = "jiraServer" then "http://jira-3.test" else "")) true,
       .fireEffect1, .fireEffect2]).pingLog =
      [("jiraServer", "http://jira-3.test"), ("jiraServer", "http://jira-3.test")] ∧
    (2 : Nat) + 1 ≠ 4 := by decide

/-- C6 amended (debounce collapsing): a burst of configuration changes while
connected performs no round by itself and leaves both timers armed with the
LAST configuration; when the pending timers then fire, exactly TWO check
rounds run — the immediate 0 ms round (the connection effect re-arms because
the checks callback identity follows the settings object) and the 500 ms
debounced round — and both use only the last configuration; every probe ever
fired is either from before the burst or against the last configuration, so
no probe is issued against a URL only in an intermediate configuration. -/
theorem debounce_collapsing_amended
    (st : HookState) (burst : List PMSettings) (slast : PMSettings) :
    (applyBurst st (burst ++ [slast])).roundsLog = st.roundsLog ∧
    (applyBurst st (burst ++ [slast])).pingLog = st.pingLog ∧
    (hookRun (applyBurst st (burst ++ [slast]))
      [.fireEffect1, .fireEffect2]).roundsLog =
      st.roundsLog ++ [checkTargets slast, checkTargets slast] ∧
    (hookRun (applyBurst st (burst ++ [slast]))
      [.fireEffect1, .fireEffect2]).pingLog =
      st.pingLog ++ (checkTargets slast ++ checkTargets slast) ∧
    ∀ p ∈ (hookRun (applyBurst st (burst ++ [slast]))
      [.fireEffect1, .fireEffect2]).pingLog,
      p ∈ st.pingLog ∨ p ∈ checkTargets slast := by
  rw [applyBurst_last]
  refine ⟨rfl, rfl, ?_, ?_, ?_⟩
  · exact (fire_both _ slast rfl rfl).1
  · exact (fire_both _ slast rfl rfl).2
  · intro p hp
    rw [(fire_both _ slast rfl rfl).2] at hp
    rcases List.mem_append.mp hp with h | h
    · left; exact h
    · right
      rcases List.mem_append.mp h with h2 | h2 <;> exact h2

/-- Witness for the amended C6 at a concrete two-change burst. -/
theorem debounce_collapsing_amended_witness :
    (hookRun (applyBurst (hookMount (fun _ => "") true)
      ([fun k => if k = "jiraServer" then "http://jira-1.test" else ""] ++
       [fun k => if k = "jiraServer" then "http://jira-2.test" else ""]))
      [.fireEffect1, .fireEffect2]).roundsLog =
      (hookMount (fun _ => "") true).roundsLog ++
        [checkTargets (fun k => if k = "jiraServer" then "http://jira-2.test" else ""),
         checkTargets (fun k => if k = "jiraServer" then "http://jira-2.test" else "")] :=
  (debounce_collapsing_amended (hookMount (fun _ => "") true)
    [fun k => if k = "jiraServer" then "http://jira-1.test" else ""]
    (fun k => if k = "jiraServer" then "http://jira-2.test" else "")).2.2.1

/-- C7 as stated is false: a probe in flight at the moment of disconnection
merges its result into the already-cleared health map when it resolves —
the source applies the per-probe setHealth with no session guard — so a
stale entry reappears while disconnected. -/
theorem disconnect_clear_counterexample :
    (hookRun (hookMount (fun k => if k = "jiraServer" then "http://jira.test" else "") true)
      [.fireEffect1, .render none false, .fireEffect1]).health = [] ∧
    (hookRun (hookMount (fun k => if k = "jiraServer" then "http://jira.test" else "") true)
      [.fireEffect1, .render none false, .fireEffect1]).isConnected = false ∧
    (hookRun (hookMount (fun k => if k = "jiraServer" then "http://jira.test" else "") true)
      [.fireEffect1, .render none false, .fireEffect1, .resolve 0 true]).health =
      [("jiraServer", HealthStatus.ok)] := by decide

/-- C7 amended (disconnection and stale probes): the disconnect render
schedules the 0 ms clear, after which the health map is empty, the pending
debounce is cancelled and in-flight pings are untouched; but when an
in-flight probe from before the disconnection later resolves, its result IS
merged into the cleared map (there is no session guard), leaving exactly the
stale entry while disconnected. -/
theorem disconnect_clear_amended
    (st : HookState) (hconn : st.isConnected = true)
    (idx : Nat) (k u : String) (r : Bool)
    (hping : (hookRun st [.render none false, .fireEffect1]).inflight[idx]? = some (k, u)) :
    (hookRun st [.render none false, .fireEffect1]).health = [] ∧
    (hookRun st [.render none false, .fireEffect1]).isConnected = false ∧
    (hookRun st [.render none false, .fireEffect1]).inflight = st.inflight ∧
    (hookStep (hookRun st [.render none false, .fireEffect1]) (.resolve idx r)).health =
      [(k, if r then HealthStatus.ok else HealthStatus.unreachable)] := by
  have hr : hookStep st (.render none false) =
      { st with
        isConnected := false,
        effect1 := some .clearHealth,
        effect2 := if st.effect2HasCleanup then none else st.effect2,
        effect2HasCleanup := false } := by
    simp only [hookStep, hconn]
    rfl
  have hD : hookRun st [.render none false, .fireEffect1] =
      { st with
        isConnected := false, health := [],
        effect1 := none,
        effect2 := if st.effect2HasCleanup then none else st.effect2,
        effect2HasCleanup := false } := by
    show hookStep (hookStep st (.render none false)) .fireEffect1 = _
    rw [hr]
    rfl
  rw [hD] at hping
  refine ⟨by rw [hD], by rw [hD], by rw [hD], ?_⟩
  rw [hD]
  simp only [hookStep, hping]
  rfl

/-- Witness for the amended C7: after one connected round with jira
configured, disconnecting clears the map and the in-flight jira probe then
re-adds a stale ok entry. -/
theorem disconnect_clear_amended_witness :
    (hookStep (hookRun
      (hookRun (hookMount (fun k => if k = "jiraServer" then "http://jira.test" else "") true)
        [.fireEffect1])
      [.render none false, .fireEffect1]) (.resolve 0 true)).health =
      [("jiraServer", HealthStatus.ok)] :=
  (disconnect_clear_amended
    (hookRun (hookMount (fun k => if k = "jiraServer" then "http://jira.test" else "") true)
      [.fireEffect1])
    (by decide) 0 "jiraServer" "http://jira.test" true (by decide)).2.2.2

/-- C8 as stated is false: at a reachable connected state the health map
holds the key jiraServer, which is the serverKey of the jira descriptor but
the id of no registry descriptor at all. -/
theorem health_key_counterexample :
    (hookRun (hookMount (fun k => if k = "jiraServer" then "http://jira.test" else "") true)
      [.fireEffect1, .resolve 0 true]).isConnected = true ∧
    (hookRun (hookMount (fun k => if k = "jiraServer" then "http://jira.test" else "") true)
      [.fireEffect1, .resolve 0 true]).health = [("jiraServer", HealthStatus.ok)] ∧
    INTEGRATIONS.all (fun d => d.id != "jiraServer") = true := by decide

/-- C8 amended (health-map key invariant): at every reachable state — in
particular at every observable state while connected — every key present in
the health map is the serverKey (not the id) of a non-hidden registry
descriptor; the endpoint was configured when the entry was written, but an
entry can outlive a later configuration change until the next full clear,
so non-emptiness of the serverKey field in the CURRENT configuration is not
an invariant. -/
theorem health_key_amended (s0 : PMSettings) (c0 : Bool) (events : List HookEvent)
    (k : String) (hs : HealthStatus)
    (hmem : (k, hs) ∈ (hookRun (hookMount s0 c0) events).health) :
    ∃ d ∈ INTEGRATIONS, d.hidden = false ∧ d.serverKey = k :=
  (hookRun_inv events (hookMount s0 c0) (hookMount_inv s0 c0)).1 (k, hs) hmem

/-- Witness for the amended C8 at a concrete reachable state holding the
jiraServer key. -/
theorem health_key_amended_witness :
    ∃ d ∈ INTEGRATIONS, d.hidden = false ∧ d.serverKey = "jiraServer" :=
  health_key_amended (fun k => if k = "jiraServer" then "http://jira.test" else "") true
    [.fireEffect1, .resolve 0 true] "jiraServer" HealthStatus.ok (by decide)

/-- Witness for C9 at a concrete network behavior. -/
theorem probe_semantics_witness :
    (pingServer (fun _ => .respond 10) "http://jira.test" 5000).timerCleared = true :=
  (probe_semantics (fun _ => .respond 10) "http://jira.test" 5000).1

end CoviaPM
